import Mathlib

/-!
Shallow embedding of the core of the Databend/FuseQuery snippet:
the `QueryContext` partition queue and refcount lifecycle
(`src/query/src/sessions/context.rs`), the Fuse table location
generation and append operation
(`src/query/src/datasources/table/fuse/`), the database engine
registry, the `ASCII` scalar function, the `CREATE USER` defaults and
the `DataValue` null test.  Rust `Result` is embedded as `Except`,
machine integers as `Nat`, and the mutable state of a context or a
data accessor as explicit state passing.
-/

namespace Databend

/-- Error codes of `common_exception::ErrorCode` that the embedded
operations can produce.  Payloads are the formatted messages. -/
inductive ErrorCode where
  | UnknownDatabase : String → ErrorCode
  | AlreadyExists : String → ErrorCode
  | Other : String → ErrorCode
  deriving Repr, DecidableEq

/-! ### DataValue (`src/src/datavalues/data_value.rs`) -/

/-- Embeds `DataValue`: a specific value of a data type, mirroring the Rust
enum variant for variant.  Rust `f32`/`f64` payloads are carried as
`Float`; `is_null` never inspects them. -/
inductive DataValue where
  | Null : DataValue
  | Boolean : Option Bool → DataValue
  | Int8 : Option Int → DataValue
  | Int16 : Option Int → DataValue
  | Int32 : Option Int → DataValue
  | Int64 : Option Int → DataValue
  | UInt8 : Option Nat → DataValue
  | UInt16 : Option Nat → DataValue
  | UInt32 : Option Nat → DataValue
  | UInt64 : Option Nat → DataValue
  | Float32 : Option Float → DataValue
  | Float64 : Option Float → DataValue
  | String : Option String → DataValue

/-- Embeds `DataValue::is_null`: the `matches!` over the twelve typed
variants carrying `None`; the untyped `Null` variant is not listed. -/
def DataValue.is_null : DataValue → Bool
  | .Boolean none => true
  | .Int8 none => true
  | .Int16 none => true
  | .Int32 none => true
  | .Int64 none => true
  | .UInt8 none => true
  | .UInt16 none => true
  | .UInt32 none => true
  | .UInt64 none => true
  | .Float32 none => true
  | .Float64 none => true
  | .String none => true
  | _ => false

/-! ### Partition queue (`src/query/src/sessions/context.rs`) -/

/-- Modelled from the spec: a partition is a read descriptor (block
location + row range + column projection) queued for stealing by
worker tasks; `common_planners::Part` is not under the sources. -/
structure Part where
  location : String
  rowRangeStart : Nat
  rowRangeLen : Nat
  deriving Repr, DecidableEq

/-- Embeds `common_planners::Partitions`. -/
abbrev Partitions := List Part

/-- Embeds `VecDeque::pop_back` on a deque whose front is the list head and
whose back is the last element. -/
def vecdeque_pop_back (q : List Part) : Option (Part × List Part) :=
  match q.getLast? with
  | none => none
  | some p => some (p, q.dropLast)

/-- The loop body of `QueryContext::try_get_partitions`: pop from the
back up to `num` times, stopping early on an empty queue; returns the
popped partitions in pop order together with the remaining queue. -/
def steal : Nat → List Part → Partitions × List Part
  | 0, q => ([], q)
  | Nat.succ n, q =>
    match vecdeque_pop_back q with
    | none => ([], q)
    | some (p, q') =>
      let r := steal n q'
      (p :: r.1, r.2)

/-- Embeds `QueryContext::try_get_partitions`: steal up to `num` partitions
from the queue; the loop never fails, and the source returns
`Ok(partitions)` unconditionally. -/
def try_get_partitions (num : Nat) (q : List Part) :
    Except ErrorCode Partitions × List Part :=
  let r := steal num q
  (Except.ok r.1, r.2)

/-- Embeds `QueryContext::try_set_partitions`: `push_back` each partition in
order onto the queue; always `Ok(())`. -/
def try_set_partitions (partitions : Partitions) (q : List Part) :
    Except ErrorCode Unit × List Part :=
  (Except.ok (), partitions.foldl (fun acc part => acc ++ [part]) q)

/-- One operation against the context partition queue. -/
inductive QueueOp where
  | set_parts : Partitions → QueueOp
  | get_parts : Nat → QueueOp

/-- Run a sequence of queue operations, collecting the partitions
returned by each `try_get_partitions` call and the final queue. -/
def run_queue_ops : List QueueOp → List Part → List Partitions × List Part
  | [], q => ([], q)
  | QueueOp.set_parts ps :: ops, q =>
    run_queue_ops ops (try_set_partitions ps q).2
  | QueueOp.get_parts n :: ops, q =>
    let r := steal n q
    let rest := run_queue_ops ops r.2
    (r.1 :: rest.1, rest.2)

/-- All partitions pushed by the `set_parts` operations of a trace. -/
def pushed_parts : List QueueOp → Partitions
  | [] => []
  | QueueOp.set_parts ps :: ops => ps ++ pushed_parts ops
  | QueueOp.get_parts _ :: ops => pushed_parts ops

/-! ### QueryContextShared reference count
(`src/query/src/sessions/context.rs`, `from_shared` / `Drop`) -/

/-- Observable state of a `QueryContextShared`: its `ref_count`
atomic and the number of times `session.destroy_context_shared()` has
been invoked.  The atomic operations are embedded sequentially. -/
structure QueryContextShared where
  ref_count : Nat
  teardown_count : Nat
  deriving Repr, DecidableEq

/-- Embeds `QueryContextShared::increment_ref_count`:
`ref_count.fetch_add(1, Relaxed)`, called from
`QueryContext::from_shared` on every context creation. -/
def increment_ref_count (s : QueryContextShared) : QueryContextShared :=
  { s with ref_count := s.ref_count + 1 }

/-- Embeds `QueryContextShared::destroy_context_ref`, called from
`Drop for QueryContext`: `fetch_sub(1, Release)` and, exactly when the
previous value was `1`, an acquire fence followed by
`session.destroy_context_shared()`. -/
def destroy_context_ref (s : QueryContextShared) : QueryContextShared :=
  if s.ref_count = 1 then
    { ref_count := s.ref_count - 1, teardown_count := s.teardown_count + 1 }
  else
    { s with ref_count := s.ref_count - 1 }

/-- A lifecycle event of the shared state: a context creation via
`from_shared` or a context drop. -/
inductive CtxOp where
  | create : CtxOp
  | drop_ctx : CtxOp

/-- Apply one lifecycle event. -/
def apply_ctx_op : CtxOp → QueryContextShared → QueryContextShared
  | CtxOp.create, s => increment_ref_count s
  | CtxOp.drop_ctx, s => destroy_context_ref s

/-- Run a sequence of lifecycle events. -/
def run_ctx_ops : List CtxOp → QueryContextShared → QueryContextShared
  | [], s => s
  | op :: ops, s => run_ctx_ops ops (apply_ctx_op op s)

/-! ### Database engine registry
(test `src/query/src/datasources/database_engine_registry_test.rs`,
caller `src/query/src/datasources/database/prelude.rs`) -/

/-- Modelled from the spec: a database engine factory is a function
from context to database instance; the embedding carries only an
identity token, as the claims never apply a factory. -/
structure DatabaseFactory where
  id : Nat
  deriving Repr, DecidableEq

/-- ASCII lowercase of one character, used for the case-insensitive
registry keys. -/
def to_lower_char (c : Char) : Char :=
  if 'A' ≤ c ∧ c ≤ 'Z' then Char.ofNat (c.toNat + 32) else c

/-- ASCII lowercase of a name (Rust `str::to_lowercase` on the ASCII
engine names). -/
def str_to_lower (s : String) : String :=
  ⟨s.data.map to_lower_char⟩

/-- Modelled from the spec: the `DatabaseEngineRegistry` maps a
case-insensitive engine name to a factory
(`database_engine_registry.rs` is not under the sources); keys are
stored lowercased, in registration order. -/
structure DatabaseEngineRegistry where
  engines : List (String × DatabaseFactory)
  deriving Repr, DecidableEq

/-- Embeds `DatabaseEngineRegistry::default()`: the empty registry. -/
def registry_default : DatabaseEngineRegistry := ⟨[]⟩

/-- Modelled from the spec: `register(name, factory)` fails with
`AlreadyExists` when a factory is already present under the
case-insensitive name, and otherwise records the factory. -/
def DatabaseEngineRegistry.register (r : DatabaseEngineRegistry)
    (name : String) (factory : DatabaseFactory) :
    Except ErrorCode DatabaseEngineRegistry :=
  let key := str_to_lower name
  if r.engines.any (fun e => e.1 = key) then
    Except.error (ErrorCode.AlreadyExists
      ("database engine " ++ name ++ " already exists"))
  else
    Except.ok ⟨r.engines ++ [(key, factory)]⟩

/-- Modelled from the spec: `get_database_factory(name)` returns the
optional factory registered under the case-insensitive name. -/
def DatabaseEngineRegistry.get_database_factory
    (r : DatabaseEngineRegistry) (name : String) : Option DatabaseFactory :=
  (r.engines.find? (fun e => e.1 = str_to_lower name)).map (fun e => e.2)

/-! ### Fuse location generation
(`src/query/src/datasources/table/fuse/io/location_gen.rs`) -/

/-- Modelled from the spec: the block location key of the Fuse table
layout, `<tbl>/_b/`; `io/constants.rs` is not under the sources. -/
def FUSE_TBL_BLOCK_PREFIX : String := "_b"

/-- Modelled from the spec: the segment location key, `<tbl>/_sg/`. -/
def FUSE_TBL_SEGMENT_PREFIX : String := "_sg"

/-- Modelled from the spec: the snapshot location key, `<tbl>/_ss/`. -/
def FUSE_TBL_SNAPSHOT_PREFIX : String := "_ss"

/-- Embeds `gen_block_location`: `format!("{}/{}", FUSE_TBL_BLOCK_PREFIX,
uuid.to_simple() + ".parquet")`.  The fresh `Uuid::new_v4()` is
nondeterministic, so its simple rendering is an explicit argument. -/
def gen_block_location (uuid : String) : String :=
  FUSE_TBL_BLOCK_PREFIX ++ "/" ++ (uuid ++ ".parquet")

/-- Embeds `gen_segment_info_location`: `format!("{}/{}",
FUSE_TBL_SEGMENT_PREFIX, uuid.to_simple())`. -/
def gen_segment_info_location (uuid : String) : String :=
  FUSE_TBL_SEGMENT_PREFIX ++ "/" ++ uuid

/-- Embeds `snapshot_location(name)`: `format!("{}/{}",
FUSE_TBL_SNAPSHOT_PREFIX, name)`; deterministic in the caller-chosen
name. -/
def snapshot_location (name : String) : String :=
  FUSE_TBL_SNAPSHOT_PREFIX ++ "/" ++ name

/-! ### Fuse append operation
(`src/query/src/datasources/table/fuse/operations/append.rs`) -/

/-- Modelled from the spec: per-column statistics of a block meta
(min, max, null count, in-memory size); `meta.rs` is not under the
sources. -/
structure ColStats where
  min : DataValue
  max : DataValue
  null_count : Nat
  in_memory_size : Nat

/-- Modelled from the spec: the meta record of one written block. -/
structure BlockMeta where
  row_count : Nat
  byte_size : Nat
  location : String
  col_stats : List (Nat × ColStats)

/-- Modelled from the spec: the aggregated summary of a segment. -/
structure Stats where
  row_count : Nat
  byte_size : Nat

/-- Modelled from the spec: a Segment is an ordered list of block
metas plus an aggregated summary. -/
structure SegmentInfo where
  blocks : List BlockMeta
  summary : Stats

/-- Modelled from the spec: the append-log entry
`(segment_location, segment_body)` produced by `append_trunks`;
`AppendOperationLogEntry` is not under the sources. -/
structure AppendOperationLogEntry where
  segment_location : String
  segment_info : SegmentInfo

/-- The observable state of a data accessor: the sequence of `put`
writes `(path, bytes)` it has performed, bytes as `Nat` lists. -/
structure DataAccessorState where
  writes : List (String × List Nat)

/-- Embeds `DataAccessor::put(path, bytes)`: on success the write is
appended to the accessor state; the backend's failure behaviour is a
parameter (`put_fails path bytes = some e` makes the put fail). -/
def da_put (put_fails : String → List Nat → Option ErrorCode)
    (st : DataAccessorState) (path : String) (bytes : List Nat) :
    Except ErrorCode DataAccessorState :=
  match put_fails path bytes with
  | some e => Except.error e
  | none => Except.ok ⟨st.writes ++ [(path, bytes)]⟩

/-- Embeds `FuseTable::append_trunks`.  The call to
`BlockAppender::append_blocks` (whose `block_appender.rs` is not under
the sources) is embedded as its result `append_blocks_result`; the
fresh segment uuid and the `serde_json::to_vec` encoder are explicit
parameters.  Mirrors the source: on `Some(seg)` it generates a segment
location, serializes the segment, `put`s the bytes there, and returns
the log entry for that location and segment; on `None` it returns
`Ok(None)`; every `?` propagates the error. -/
def append_trunks (append_blocks_result : Except ErrorCode (Option SegmentInfo))
    (segment_uuid : String)
    (to_vec : SegmentInfo → Except ErrorCode (List Nat))
    (put_fails : String → List Nat → Option ErrorCode)
    (da : DataAccessorState) :
    Except ErrorCode (Option AppendOperationLogEntry × DataAccessorState) :=
  match append_blocks_result with
  | Except.error e => Except.error e
  | Except.ok (some seg) =>
    let seg_loc := gen_segment_info_location segment_uuid
    match to_vec seg with
    | Except.error e => Except.error e
    | Except.ok bytes =>
      match da_put put_fails da seg_loc bytes with
      | Except.error e => Except.error e
      | Except.ok da' => Except.ok (some ⟨seg_loc, seg⟩, da')
  | Except.ok none => Except.ok (none, da)

/-! ### ASCII scalar function
(`src/common/functions/src/scalars/strings/ascii.rs`) -/

/-- The per-row loop of `AsciiFunction::eval` over the input column
after `cast_with_type(&DataType::String)`: each row is an optional
byte string (`Option<&[u8]>`, bytes as `Nat`); a null or empty value
yields a null row, a non-empty value yields `format!("{}", v[0])`, the
decimal rendering of its first byte.  The casting and the arrow array
plumbing are external collaborators. -/
def ascii_eval (col : List (Option (List Nat))) : List (Option String) :=
  col.map fun value =>
    match value with
    | some (b :: _) => some (toString b)
    | _ => none

/-! ### CREATE USER parsing defaults
(test `src/query/src/sql/sql_parser_test.rs`, `create_user_test`) -/

/-- Embeds `common_meta_types::AuthType`. -/
inductive AuthType where
  | NoneAuth : AuthType
  | PlainText : AuthType
  | Sha256 : AuthType
  | DoubleSha1 : AuthType
  deriving Repr, DecidableEq

/-- Embeds `DfCreateUser`, the parsed form of a CREATE USER statement. -/
structure DfCreateUser where
  if_not_exists : Bool
  name : String
  hostname : String
  auth_type : AuthType
  password : String
  deriving Repr, DecidableEq

/-- Modelled from the spec: the auth clause of the CREATE USER
grammar (the parser `sql_parser.rs` is not under the sources):
either `NOT IDENTIFIED`, `IDENTIFIED BY '<password>'` with no method,
or `IDENTIFIED WITH <method> [BY '<password>']`. -/
inductive AuthClause where
  | not_identified : AuthClause
  | identified_by : String → AuthClause
  | identified_with : AuthType → String → AuthClause

/-- Modelled from the spec: resolve the optional auth clause to the
stored (auth_type, password); an absent clause or `NOT IDENTIFIED`
stores no password, and a bare `IDENTIFIED BY` defaults the kind to
`sha256_password`. -/
def parse_auth_clause : Option AuthClause → AuthType × String
  | none => (AuthType.NoneAuth, "")
  | some AuthClause.not_identified => (AuthType.NoneAuth, "")
  | some (AuthClause.identified_by pw) => (AuthType.Sha256, pw)
  | some (AuthClause.identified_with t pw) => (t, pw)

/-- Modelled from the spec: the `'<name>'[@'<host>']` part of CREATE
USER; an omitted host defaults to the wildcard `%`. -/
def parse_user_host (name : String) (host : Option String) : String × String :=
  (name, host.getD "%")

/-- Modelled from the spec: parse a structured CREATE USER statement
into `DfCreateUser`. -/
def parse_create_user (if_not_exists : Bool) (name : String)
    (host : Option String) (auth : Option AuthClause) : DfCreateUser :=
  let nh := parse_user_host name host
  let ap := parse_auth_clause auth
  { if_not_exists := if_not_exists
    name := nh.1
    hostname := nh.2
    auth_type := ap.1
    password := ap.2 }

/-! ### set_current_database
(`src/query/src/sessions/context.rs`) -/

/-- The session-shared state observed by `set_current_database`. -/
structure SessionSharedState where
  current_database : String
  deriving Repr, DecidableEq

/-- Embeds `QueryContext::set_current_database`.  The catalog's
`get_database` lookup (`DatabaseCatalog` is not under the sources) is
a parameter.  On a successful lookup the shared current database is
set to the new name and `Ok(())` is returned; on a failed lookup an
`UnknownDatabase` error with the formatted message is returned and the
state is untouched. -/
def set_current_database
    (get_database : String → Except ErrorCode Unit)
    (st : SessionSharedState) (new_database_name : String) :
    Except ErrorCode Unit × SessionSharedState :=
  match get_database new_database_name with
  | Except.ok _ =>
    (Except.ok (), { st with current_database := new_database_name })
  | Except.error _ =>
    (Except.error (ErrorCode.UnknownDatabase
      ("Cannot USE '" ++ new_database_name ++ "', because the '" ++
        new_database_name ++ "' doesn't exist")), st)

/-! ## Theorems -/

/-- Popping via `pop_back` on a non-empty deque removes the last element. -/
theorem vecdeque_pop_back_concat (q : List Part) (p : Part) :
    vecdeque_pop_back (q ++ [p]) = some (p, q) := by
  simp [vecdeque_pop_back, List.getLast?_concat, List.dropLast_concat]

/-- Popping via `pop_back` on the empty deque yields nothing. -/
theorem vecdeque_pop_back_nil : vecdeque_pop_back [] = none := rfl

/-- Stealing from an empty queue yields nothing and keeps it empty. -/
theorem steal_nil (n : Nat) : steal n [] = ([], []) := by
  cases n <;> simp [steal, vecdeque_pop_back_nil]

/-- Unfolding one steal step on a non-empty queue. -/
theorem steal_concat (n : Nat) (q : List Part) (p : Part) :
    steal (n + 1) (q ++ [p]) = ((p :: (steal n q).1, (steal n q).2)) := by
  simp [steal, vecdeque_pop_back_concat]

/-- The partitions stolen are the last `n` queue elements in reverse
insertion order. -/
theorem steal_fst_eq (n : Nat) (q : List Part) :
    (steal n q).1 = q.reverse.take n := by
  induction n generalizing q with
  | zero => simp [steal]
  | succ n ih =>
    rcases List.eq_nil_or_concat q with rfl | ⟨q₀, p, rfl⟩
    · simp [steal_nil]
    · rw [List.concat_eq_append, steal_concat]
      simp [ih]

/-- A steal never returns more elements than requested. -/
theorem steal_length_le (n : Nat) (q : List Part) :
    (steal n q).1.length ≤ n := by
  rw [steal_fst_eq]
  exact List.length_take_le _ _

/-- Stolen partitions plus the remaining queue are a permutation of
the original queue: a steal neither loses nor invents partitions. -/
theorem steal_perm (n : Nat) (q : List Part) :
    ((steal n q).1 ++ (steal n q).2).Perm q := by
  induction n generalizing q with
  | zero => simp [steal]
  | succ n ih =>
    rcases List.eq_nil_or_concat q with rfl | ⟨q₀, p, rfl⟩
    · simp [steal_nil]
    · rw [List.concat_eq_append, steal_concat]
      exact ((ih q₀).cons p).trans (List.perm_append_singleton p q₀).symm

/-- Pushing via `try_set_partitions` appends the pushed partitions at the back. -/
theorem try_set_partitions_eq (ps : Partitions) (q : List Part) :
    try_set_partitions ps q = (Except.ok (), q ++ ps) := by
  unfold try_set_partitions
  congr 1
  induction ps generalizing q with
  | nil => simp
  | cons p ps ih => simp [List.foldl_cons, ih]

/-- Conservation invariant over a trace: the partitions returned by
the `get` operations plus the final queue are a permutation of the
pushed partitions plus the initial queue. -/
theorem run_queue_ops_perm (ops : List QueueOp) (q : List Part) :
    ((run_queue_ops ops q).1.flatten ++ (run_queue_ops ops q).2).Perm
      (pushed_parts ops ++ q) := by
  induction ops generalizing q with
  | nil => simp [run_queue_ops, pushed_parts]
  | cons op ops ih =>
    cases op with
    | set_parts ps =>
      simp only [run_queue_ops, pushed_parts, try_set_partitions_eq]
      refine (ih (q ++ ps)).trans ?_
      have h3 : (pushed_parts ops ++ (q ++ ps)).Perm
          (pushed_parts ops ++ (ps ++ q)) :=
        List.Perm.append_left _ List.perm_append_comm
      have h5 := h3.trans (List.perm_append_comm_assoc _ _ _)
      rw [List.append_assoc]
      exact h5
    | get_parts n =>
      simp only [run_queue_ops, pushed_parts, List.flatten_cons]
      have h1 := ih (steal n q).2
      have h2 := steal_perm n q
      have key : ((steal n q).1 ++
          ((run_queue_ops ops (steal n q).2).1.flatten ++
            (run_queue_ops ops (steal n q).2).2)).Perm
          (pushed_parts ops ++ q) :=
        ((List.Perm.append_left _ h1).trans
          (List.perm_append_comm_assoc _ _ _)).trans
          (List.Perm.append_left _ h2)
      rw [← List.append_assoc] at key
      exact key

/-- C2: `try_get_partitions(k)` always returns `Ok` with at most `k`
partitions (an exhausted queue just gives fewer, never an error), and
across any sequence of `try_set_partitions` and `try_get_partitions`
calls on one context the partitions returned by the gets plus those
still queued are a permutation of the partitions pushed: every pushed
partition is returned by exactly one get once the queue drains, and
nothing that was not pushed is ever returned. -/
theorem try_get_partitions_spec :
    (∀ (num : Nat) (q : List Part),
      (try_get_partitions num q).1 = Except.ok (steal num q).1 ∧
        (steal num q).1.length ≤ num) ∧
    (∀ ops : List QueueOp,
      ((run_queue_ops ops []).1.flatten ++ (run_queue_ops ops []).2).Perm
        (pushed_parts ops)) := by
  refine ⟨fun num q => ⟨rfl, steal_length_le num q⟩, fun ops => ?_⟩
  have h := run_queue_ops_perm ops []
  simpa using h

/-- C3: the partition queue is LIFO.  Pushing `[p1, …, pm]` with
`try_set_partitions` onto an empty queue appends them at the back in
order, and a subsequent `try_get_partitions k` pops from the back,
returning the last `min k m` pushed partitions in reverse insertion
order (`pm` first), i.e. `ps.reverse.take k`. -/
theorem partition_queue_lifo (ps : Partitions) (k : Nat) :
    (try_set_partitions ps []).2 = ps ∧
    (try_get_partitions k (try_set_partitions ps []).2).1 =
      Except.ok (ps.reverse.take k) := by
  have hset : (try_set_partitions ps []).2 = ps := by
    rw [try_set_partitions_eq]
    simp
  refine ⟨hset, ?_⟩
  rw [hset]
  show Except.ok (steal k ps).1 = Except.ok (ps.reverse.take k)
  rw [steal_fst_eq]

/-- Running lifecycle events distributes over list append. -/
theorem run_ctx_ops_append (a b : List CtxOp) (s : QueryContextShared) :
    run_ctx_ops (a ++ b) s = run_ctx_ops b (run_ctx_ops a s) := by
  induction a generalizing s with
  | nil => rfl
  | cons op a ih => simp [run_ctx_ops, ih]

/-- Running `n` context creations raises the refcount by `n` and never tear
down. -/
theorem run_ctx_ops_create (n : Nat) (s : QueryContextShared) :
    run_ctx_ops (List.replicate n CtxOp.create) s =
      ⟨s.ref_count + n, s.teardown_count⟩ := by
  induction n generalizing s with
  | zero => simp [run_ctx_ops]
  | succ n ih =>
    rw [List.replicate_succ]
    simp only [run_ctx_ops, apply_ctx_op, increment_ref_count]
    rw [ih]
    simp [Nat.add_comm, Nat.add_assoc, Nat.add_left_comm]

/-- Fewer drops than the refcount: each drop decrements and no drop
sees a pre-count of one, so teardown never fires. -/
theorem run_ctx_ops_drop_lt (k : Nat) :
    ∀ c t, k < c →
      run_ctx_ops (List.replicate k CtxOp.drop_ctx) ⟨c, t⟩ = ⟨c - k, t⟩ := by
  induction k with
  | zero => intro c t _; simp [run_ctx_ops]
  | succ k ih =>
    intro c t hk
    rw [List.replicate_succ]
    simp only [run_ctx_ops, apply_ctx_op, destroy_context_ref]
    have hc1 : c ≠ 1 := by omega
    rw [if_neg hc1]
    have := ih (c - 1) t (by omega)
    rw [this]
    congr 1
    omega

/-- Exactly as many drops as the refcount: the final drop sees a
pre-count of one and fires teardown exactly once. -/
theorem run_ctx_ops_drop_exact (c : Nat) :
    ∀ t, 1 ≤ c →
      run_ctx_ops (List.replicate c CtxOp.drop_ctx) ⟨c, t⟩ = ⟨0, t + 1⟩ := by
  induction c with
  | zero => intro t h; omega
  | succ c ih =>
    intro t _
    rw [List.replicate_succ]
    simp only [run_ctx_ops, apply_ctx_op, destroy_context_ref]
    by_cases hc : c + 1 = 1
    · have hc0 : c = 0 := by omega
      subst hc0
      simp [run_ctx_ops]
    · rw [if_neg hc]
      have hc1 : 1 ≤ c := by omega
      have := ih t hc1
      simpa using this

/-- C4: every `from_shared` increments the shared refcount by one and
leaves teardown untouched, every drop decrements by one, and for `n`
creations followed by `n` drops starting from a fresh shared state the
teardown runs exactly once — after the first `n-1` drops the refcount
is one and teardown has not run, and the final drop (the one taking
the count from one to zero) runs it. -/
theorem context_refcount_spec (n : Nat) (hn : 1 ≤ n) :
    (∀ s : QueryContextShared,
      increment_ref_count s = ⟨s.ref_count + 1, s.teardown_count⟩) ∧
    (∀ s : QueryContextShared,
      (destroy_context_ref s).ref_count = s.ref_count - 1) ∧
    run_ctx_ops (List.replicate n CtxOp.create ++
        List.replicate (n - 1) CtxOp.drop_ctx) ⟨0, 0⟩ = ⟨1, 0⟩ ∧
    run_ctx_ops (List.replicate n CtxOp.create ++
        List.replicate n CtxOp.drop_ctx) ⟨0, 0⟩ = ⟨0, 1⟩ := by
  refine ⟨fun s => rfl, fun s => ?_, ?_, ?_⟩
  · unfold destroy_context_ref
    by_cases h : s.ref_count = 1 <;> simp [h]
  · rw [run_ctx_ops_append, run_ctx_ops_create]
    have := run_ctx_ops_drop_lt (n - 1) n 0 (by omega)
    simpa [Nat.sub_sub_self hn] using this
  · rw [run_ctx_ops_append, run_ctx_ops_create]
    simpa using run_ctx_ops_drop_exact n 0 hn

/-- Witness for C4 at `n = 3`. -/
theorem context_refcount_spec_witness :
    run_ctx_ops (List.replicate 3 CtxOp.create ++
        List.replicate 2 CtxOp.drop_ctx) ⟨0, 0⟩ = ⟨1, 0⟩ ∧
    run_ctx_ops (List.replicate 3 CtxOp.create ++
        List.replicate 3 CtxOp.drop_ctx) ⟨0, 0⟩ = ⟨0, 1⟩ :=
  ⟨(context_refcount_spec 3 (by decide)).2.2.1,
   (context_refcount_spec 3 (by decide)).2.2.2⟩

/-- C1: `append_trunks` returns `None` (writing nothing) when the
block appender wrote zero blocks, and when it produced a segment the
operation serializes it, writes the bytes via the data accessor at the
freshly generated segment location, and returns an
`AppendOperationLogEntry` carrying exactly that location and segment
body. -/
theorem append_trunks_spec
    (append_blocks_result : Except ErrorCode (Option SegmentInfo))
    (segment_uuid : String)
    (to_vec : SegmentInfo → Except ErrorCode (List Nat))
    (put_fails : String → List Nat → Option ErrorCode)
    (da : DataAccessorState) :
    (append_blocks_result = Except.ok none →
      append_trunks append_blocks_result segment_uuid to_vec put_fails da =
        Except.ok (none, da)) ∧
    (∀ seg bytes, append_blocks_result = Except.ok (some seg) →
      to_vec seg = Except.ok bytes →
      put_fails (gen_segment_info_location segment_uuid) bytes = none →
      append_trunks append_blocks_result segment_uuid to_vec put_fails da =
        Except.ok (some ⟨gen_segment_info_location segment_uuid, seg⟩,
          ⟨da.writes ++ [(gen_segment_info_location segment_uuid, bytes)]⟩)) := by
  constructor
  · intro h
    rw [h]
    rfl
  · intro seg bytes h hv hp
    subst h
    simp only [append_trunks, da_put, hv, hp]

/-- Witness for C1: a zero-block append returns `None` with no write,
and a one-segment append writes the serialized segment at the
generated location and logs it. -/
theorem append_trunks_spec_witness :
    append_trunks (Except.ok none) "u1" (fun _ => Except.ok [7, 8])
        (fun _ _ => none) ⟨[]⟩ = Except.ok (none, ⟨[]⟩) ∧
    append_trunks (Except.ok (some ⟨[], ⟨0, 0⟩⟩)) "u1"
        (fun _ => Except.ok [7, 8]) (fun _ _ => none) ⟨[]⟩ =
      Except.ok (some ⟨gen_segment_info_location "u1", ⟨[], ⟨0, 0⟩⟩⟩,
        ⟨[(gen_segment_info_location "u1", [7, 8])]⟩) :=
  ⟨(append_trunks_spec (Except.ok none) "u1" (fun _ => Except.ok [7, 8])
      (fun _ _ => none) ⟨[]⟩).1 rfl,
   (append_trunks_spec (Except.ok (some ⟨[], ⟨0, 0⟩⟩)) "u1"
      (fun _ => Except.ok [7, 8]) (fun _ _ => none) ⟨[]⟩).2
      ⟨[], ⟨0, 0⟩⟩ [7, 8] rfl rfl rfl⟩

/-- C5: a factory registered under a name is returned by
`get_database_factory` for any case variant of that name, `get`
returns none for a name no entry matches, and a second `register`
under the same (case-insensitive) name fails with `AlreadyExists`
while the first registration stays in place. -/
theorem database_engine_registry_spec
    (r r' : DatabaseEngineRegistry) (n m : String)
    (f f₂ : DatabaseFactory)
    (hcase : str_to_lower m = str_to_lower n)
    (hreg : r.register n f = Except.ok r') :
    r'.get_database_factory m = some f ∧
    (∃ msg, r'.register m f₂ = Except.error (ErrorCode.AlreadyExists msg) ∧
      r'.get_database_factory m = some f) ∧
    (∀ (q : DatabaseEngineRegistry) (name : String),
      q.engines.any (fun e => e.1 = str_to_lower name) = false →
      q.get_database_factory name = none) := by
  have hnone : ∀ (q : DatabaseEngineRegistry) (name : String),
      q.engines.any (fun e => e.1 = str_to_lower name) = false →
      q.get_database_factory name = none := by
    intro q name hq
    unfold DatabaseEngineRegistry.get_database_factory
    have : q.engines.find? (fun e => e.1 = str_to_lower name) = none := by
      rw [List.find?_eq_none]
      intro x hx
      have := List.any_eq_false.mp hq x hx
      simpa using this
    rw [this]
    rfl
  unfold DatabaseEngineRegistry.register at hreg
  by_cases hdup : r.engines.any (fun e => e.1 = str_to_lower n) = true
  · rw [if_pos hdup] at hreg
    exact absurd hreg (by simp)
  · rw [if_neg hdup] at hreg
    have hr' : r'.engines = r.engines ++ [(str_to_lower n, f)] := by
      cases hreg
      rfl
    have hget : r'.get_database_factory m = some f := by
      unfold DatabaseEngineRegistry.get_database_factory
      rw [hr', hcase, List.find?_append]
      have hleft : r.engines.find? (fun e => e.1 = str_to_lower n) = none := by
        rw [List.find?_eq_none]
        intro x hx
        have hfalse : r.engines.any (fun e => e.1 = str_to_lower n) = false :=
          Bool.eq_false_iff.mpr hdup
        have := List.any_eq_false.mp hfalse x hx
        simpa using this
      rw [hleft]
      simp [List.find?]
    refine ⟨hget, ⟨"database engine " ++ m ++ " already exists", ?_, hget⟩,
      hnone⟩
    unfold DatabaseEngineRegistry.register
    have hany : r'.engines.any (fun e => e.1 = str_to_lower m) = true := by
      rw [hr', hcase]
      simp
    rw [if_pos hany]

/-- Witness for C5: registering `DEFAULT` in the empty registry, a
lowercase lookup finds it, an unregistered name misses, and
re-registering `default` fails. -/
theorem database_engine_registry_spec_witness :
    (DatabaseEngineRegistry.mk [("default", ⟨1⟩)]).get_database_factory
        "default" = some ⟨1⟩ ∧
    (∃ msg, (DatabaseEngineRegistry.mk [("default", ⟨1⟩)]).register
        "default" ⟨2⟩ = Except.error (ErrorCode.AlreadyExists msg) ∧
      (DatabaseEngineRegistry.mk [("default", ⟨1⟩)]).get_database_factory
        "default" = some ⟨1⟩) ∧
    (∀ (q : DatabaseEngineRegistry) (name : String),
      q.engines.any (fun e => e.1 = str_to_lower name) = false →
      q.get_database_factory name = none) :=
  database_engine_registry_spec registry_default
    (DatabaseEngineRegistry.mk [("default", ⟨1⟩)]) "DEFAULT" "default"
    ⟨1⟩ ⟨2⟩ rfl rfl

/-- C6: `gen_block_location` produces `<block-key>/<uuid>.parquet`,
`gen_segment_info_location` produces `<segment-key>/<uuid>`,
`snapshot_location` deterministically produces `<snapshot-key>/<name>`,
the three key strings are pairwise distinct, and two generated
locations with distinct uuids — or of different kinds — are never the
same path. -/
theorem location_gen_spec :
    (∀ uuid, gen_block_location uuid =
      FUSE_TBL_BLOCK_PREFIX ++ "/" ++ (uuid ++ ".parquet")) ∧
    (∀ uuid, gen_segment_info_location uuid =
      FUSE_TBL_SEGMENT_PREFIX ++ "/" ++ uuid) ∧
    (∀ name, snapshot_location name =
      FUSE_TBL_SNAPSHOT_PREFIX ++ "/" ++ name) ∧
    ( FUSE_TBL_BLOCK_PREFIX ≠ FUSE_TBL_SEGMENT_PREFIX ∧
      FUSE_TBL_BLOCK_PREFIX ≠ FUSE_TBL_SNAPSHOT_PREFIX ∧
      FUSE_TBL_SEGMENT_PREFIX ≠ FUSE_TBL_SNAPSHOT_PREFIX) ∧
    (∀ u₁ u₂, u₁ ≠ u₂ →
      gen_block_location u₁ ≠ gen_block_location u₂) ∧
    (∀ u₁ u₂, u₁ ≠ u₂ →
      gen_segment_info_location u₁ ≠ gen_segment_info_location u₂) ∧
    (∀ u₁ u₂, gen_block_location u₁ ≠ gen_segment_info_location u₂) ∧
    (∀ u₁ u₂, gen_block_location u₁ ≠ snapshot_location u₂) ∧
    (∀ u₁ u₂, gen_segment_info_location u₁ ≠ snapshot_location u₂) := by
  refine ⟨fun _ => rfl, fun _ => rfl, fun _ => rfl,
    ⟨by decide, by decide, by decide⟩, ?_, ?_, ?_, ?_, ?_⟩
  · intro u₁ u₂ h hc
    apply h
    have hd := congrArg String.data hc
    unfold gen_block_location at hd
    simp only [String.data_append] at hd
    have h1 := List.append_cancel_left hd
    have h2 := List.append_cancel_right h1
    exact String.ext h2
  · intro u₁ u₂ h hc
    apply h
    have hd := congrArg String.data hc
    unfold gen_segment_info_location at hd
    simp only [String.data_append] at hd
    exact String.ext (List.append_cancel_left hd)
  · intro u₁ u₂ hc
    have hd := congrArg String.data hc
    unfold gen_block_location gen_segment_info_location at hd
    simp only [String.data_append] at hd
    simp [show FUSE_TBL_BLOCK_PREFIX.data = ['_', 'b'] from rfl,
      show FUSE_TBL_SEGMENT_PREFIX.data = ['_', 's', 'g'] from rfl,
      show "/".data = ['/'] from rfl] at hd
  · intro u₁ u₂ hc
    have hd := congrArg String.data hc
    unfold gen_block_location snapshot_location at hd
    simp only [String.data_append] at hd
    simp [show FUSE_TBL_BLOCK_PREFIX.data = ['_', 'b'] from rfl,
      show FUSE_TBL_SNAPSHOT_PREFIX.data = ['_', 's', 's'] from rfl,
      show "/".data = ['/'] from rfl] at hd
  · intro u₁ u₂ hc
    have hd := congrArg String.data hc
    unfold gen_segment_info_location snapshot_location at hd
    simp only [String.data_append] at hd
    simp [show FUSE_TBL_SEGMENT_PREFIX.data = ['_', 's', 'g'] from rfl,
      show FUSE_TBL_SNAPSHOT_PREFIX.data = ['_', 's', 's'] from rfl,
      show "/".data = ['/'] from rfl] at hd

/-- Witness for C6: two distinct uuids give distinct block paths. -/
theorem location_gen_spec_witness :
    gen_block_location "aa" ≠ gen_block_location "bb" ∧
    gen_block_location "aa" ≠ gen_segment_info_location "aa" :=
  ⟨(location_gen_spec.2.2.2.2).1 "aa" "bb" (by decide),
   (location_gen_spec.2.2.2.2).2.2.1 "aa" "aa"⟩

/-- C7: row-wise, `AsciiFunction::eval` produces null exactly when
the value after the cast to string is null or the empty string, and
otherwise produces a non-null result derived from the first byte (its
decimal rendering); so `ASCII('')` is null, not zero. -/
theorem ascii_eval_spec (col : List (Option (List Nat))) (i : Nat)
    (v : Option (List Nat)) (h : col[i]? = some v) :
    ((v = none ∨ v = some []) → (ascii_eval col)[i]? = some none) ∧
    (∀ b bs, v = some (b :: bs) →
      (ascii_eval col)[i]? = some (some (toString b)) ∧
        (some (toString b) : Option String) ≠ none) := by
  have hmap : (ascii_eval col)[i]? =
      (col[i]?).map fun value =>
        match value with
        | some (b :: _) => some (toString b)
        | _ => none := by
    unfold ascii_eval
    rw [List.getElem?_map]
  rw [hmap, h]
  constructor
  · rintro (rfl | rfl) <;> rfl
  · rintro b bs rfl
    exact ⟨rfl, by simp⟩

/-- Witness for C7: `ASCII` of the byte string "a" is the non-null
"97", of the empty string is null, and of a null row is null. -/
theorem ascii_eval_spec_witness :
    (ascii_eval [some [97], some [], none])[0]? = some (some (toString 97)) ∧
    (ascii_eval [some [97], some [], none])[1]? = some none ∧
    (ascii_eval [some [97], some [], none])[2]? = some none :=
  ⟨((ascii_eval_spec [some [97], some [], none] 0 (some [97]) rfl).2
      97 [] rfl).1,
   (ascii_eval_spec [some [97], some [], none] 1 (some []) rfl).1
      (Or.inr rfl),
   (ascii_eval_spec [some [97], some [], none] 2 none rfl).1
      (Or.inl rfl)⟩

/-- C8: parsing CREATE USER with a bare `IDENTIFIED BY '<password>'`
clause yields auth type `Sha256` (sha256_password is the default
kind), and parsing CREATE USER without an `@'<host>'` part yields
hostname `%`. -/
theorem create_user_defaults_spec :
    (∀ (name pw : String),
      parse_create_user false name (some "localhost")
          (some (AuthClause.identified_by pw)) =
        ⟨false, name, "localhost", AuthType.Sha256, pw⟩) ∧
    (∀ (name pw : String),
      parse_create_user false name none
          (some (AuthClause.identified_with AuthType.Sha256 pw)) =
        ⟨false, name, "%", AuthType.Sha256, pw⟩) ∧
    (∀ (name : String) (host : Option String) (auth : Option AuthClause),
      (parse_create_user false name host auth).auth_type =
        (parse_auth_clause auth).1 ∧
      (parse_create_user false name host auth).hostname = host.getD "%") :=
  ⟨fun _ _ => rfl, fun _ _ => rfl, fun _ _ _ => ⟨rfl, rfl⟩⟩

/-- C9: `DataValue::is_null` is true exactly for the typed variants
carrying `None`; in particular the untyped `DataValue::Null` variant
and every `Some` payload give false. -/
theorem data_value_is_null_spec :
    DataValue.Null.is_null = false ∧
    ∀ v : DataValue, v.is_null = true ↔
      (v = DataValue.Boolean none ∨ v = DataValue.Int8 none ∨
       v = DataValue.Int16 none ∨ v = DataValue.Int32 none ∨
       v = DataValue.Int64 none ∨ v = DataValue.UInt8 none ∨
       v = DataValue.UInt16 none ∨ v = DataValue.UInt32 none ∨
       v = DataValue.UInt64 none ∨ v = DataValue.Float32 none ∨
       v = DataValue.Float64 none ∨ v = DataValue.String none) := by
  refine ⟨rfl, fun v => ?_⟩
  cases v with
  | Null => simp [DataValue.is_null]
  | Boolean o => cases o <;> simp [DataValue.is_null]
  | Int8 o => cases o <;> simp [DataValue.is_null]
  | Int16 o => cases o <;> simp [DataValue.is_null]
  | Int32 o => cases o <;> simp [DataValue.is_null]
  | Int64 o => cases o <;> simp [DataValue.is_null]
  | UInt8 o => cases o <;> simp [DataValue.is_null]
  | UInt16 o => cases o <;> simp [DataValue.is_null]
  | UInt32 o => cases o <;> simp [DataValue.is_null]
  | UInt64 o => cases o <;> simp [DataValue.is_null]
  | Float32 o => cases o <;> simp [DataValue.is_null]
  | Float64 o => cases o <;> simp [DataValue.is_null]
  | String o => cases o <;> simp [DataValue.is_null]

/-- C10: `set_current_database(d)` updates the session's current
database and returns `Ok` when the catalog resolves `d`, and when the
lookup fails it returns `UnknownDatabase` with the formatted message
and leaves the current database unchanged. -/
theorem set_current_database_spec
    (get_database : String → Except ErrorCode Unit)
    (st : SessionSharedState) (d : String) :
    (∀ u, get_database d = Except.ok u →
      set_current_database get_database st d =
        (Except.ok (), { st with current_database := d })) ∧
    (∀ e, get_database d = Except.error e →
      set_current_database get_database st d =
        (Except.error (ErrorCode.UnknownDatabase
          ("Cannot USE '" ++ d ++ "', because the '" ++ d ++
            "' doesn't exist")), st)) := by
  constructor
  · intro u h
    unfold set_current_database
    rw [h]
  · intro e h
    unfold set_current_database
    rw [h]

/-- Witness for C10 over a one-database catalog: `USE db1` succeeds
and sets the current database, `USE nope` fails with
`UnknownDatabase` and keeps it. -/
theorem set_current_database_spec_witness :
    set_current_database
        (fun s => if s = "db1" then Except.ok ()
          else Except.error (ErrorCode.Other "not found"))
        ⟨"default"⟩ "db1" = (Except.ok (), ⟨"db1"⟩) ∧
    set_current_database
        (fun s => if s = "db1" then Except.ok ()
          else Except.error (ErrorCode.Other "not found"))
        ⟨"default"⟩ "nope" =
      (Except.error (ErrorCode.UnknownDatabase
        ("Cannot USE '" ++ "nope" ++ "', because the '" ++ "nope" ++
          "' doesn't exist")), ⟨"default"⟩) :=
  ⟨(set_current_database_spec
      (fun s => if s = "db1" then Except.ok ()
        else Except.error (ErrorCode.Other "not found"))
      ⟨"default"⟩ "db1").1 () rfl,
   (set_current_database_spec
      (fun s => if s = "db1" then Except.ok ()
        else Except.error (ErrorCode.Other "not found"))
      ⟨"default"⟩ "nope").2 (ErrorCode.Other "not found") rfl⟩

end Databend
